import Mathlib

/-!
Verification of the opennote `init` installation state machine.

The development shallowly embeds the TypeScript sources:
- `src/packages/opennote/src/commands/init.ts` (init controller, retry, cleanup)
- `src/packages/opennote/src/utils/state-manager.ts` (load/save/validate state)
- `src/packages/opennote/src/utils/command-installer.ts` (file rendering/installation)
- `src/packages/opennote/src/utils/command-registry.ts` (command validation)
- `src/packages/opennote/src/commands/index.ts` (the bundled catalog)

JavaScript runtime values produced by `JSON.parse` are modelled by the `Json`
inductive; `undefined` is modelled as `Option.none` where it can occur.
Host primitives are modelled as follows: `JSON.parse`/`JSON.stringify` round
trip at the `Json`-value level (the state file stores a parse outcome), string
`Number(...)` conversion is modelled on digit-only segments (other segments
map to `none`, standing for `NaN`), and `setTimeout` delays are recorded as a
list of waited milliseconds.
-/

/-- A JavaScript error value as observed by the init command: an optional
`code` property (e.g. `EACCES`) and a `message` string. -/
structure Err where
  code : Option String
  message : String
deriving DecidableEq, Repr

/-- Lower-casing of a string, modelling `String.prototype.toLowerCase` for
the ASCII texts the program matches on. -/
def jsLower (s : String) : String :=
  String.mk (s.data.map Char.toLower)

/-- Check that the first list is an initial segment of the second. -/
def beginsWith : List Char → List Char → Bool
  | [], _ => true
  | _ :: _, [] => false
  | p :: ps, c :: cs => p == c && beginsWith ps cs

/-- Check that `pat` occurs contiguously inside the second list. -/
def hasSub (pat : List Char) : List Char → Bool
  | [] => beginsWith pat []
  | c :: cs => beginsWith pat (c :: cs) || hasSub pat cs

/-- Substring test modelling `String.prototype.includes`. -/
def strIncludes (s pat : String) : Bool :=
  hasSub pat.data s.data

/-- Translation of `isTransientError` from `init.ts`: an error is transient
when its `code` is one of five retryable codes or its lower-cased message
mentions network/timeout/temporary conditions. -/
def isTransientError (e : Err) : Bool :=
  e.code == some "EAGAIN" || e.code == some "ECONNRESET" ||
  e.code == some "ETIMEDOUT" || e.code == some "ENFILE" ||
  e.code == some "EMFILE" ||
  strIncludes (jsLower e.message) "network" ||
  strIncludes (jsLower e.message) "timeout" ||
  strIncludes (jsLower e.message) "temporary"

/-- Loop of `retryOperation` from `init.ts`. The wrapped operation is given
abstractly as the outcome it produces on each (1-based) attempt. The second
component collects the backoff delays (in milliseconds) actually waited; the
source sleeps `Math.pow(2, attempt) * 1000` milliseconds after every failed
transient attempt, including the last one, before rethrowing. -/
def retryGo {α : Type} (op : Nat → Except Err α) :
    Nat → Nat → Option Err → Except Err α × List Nat
  | _, 0, last => (.error (last.getD ⟨none, ""⟩), [])
  | attempt, fuel + 1, _ =>
    match op attempt with
    | .ok a => (.ok a, [])
    | .error e =>
      if isTransientError e then
        let r := retryGo op (attempt + 1) fuel (some e)
        (r.1, (2 ^ attempt * 1000) :: r.2)
      else (.error e, [])

/-- Translation of `retryOperation` from `init.ts`: run the operation for at
most `maxRetries` attempts, retrying (after an exponential backoff wait) only
on transient errors; the source calls it with the default `maxRetries = 3`. -/
def retryOperation {α : Type} (op : Nat → Except Err α) (maxRetries : Nat) :
    Except Err α × List Nat :=
  retryGo op 1 maxRetries none

/-- A JSON value, as produced by `JSON.parse`. Numbers are restricted to the
integers (the program never manipulates fractional JSON numbers). -/
inductive Json where
  | null : Json
  | bool : Bool → Json
  | num : Int → Json
  | str : String → Json
  | arr : List Json → Json
  | obj : List (String × Json) → Json
deriving Repr

/-- JavaScript falsiness of a JSON value (`NaN` cannot occur in parsed
JSON): `null`, `false`, `0` and the empty string are falsy. -/
def jsFalsy : Json → Bool
  | .null => true
  | .bool b => !b
  | .num n => n == 0
  | .str s => s == ""
  | .arr _ => false
  | .obj _ => false

/-- Truthiness of a possibly-`undefined` JavaScript value. -/
def jsTruthy : Option Json → Bool
  | none => false
  | some j => !jsFalsy j

/-- Property lookup in a parsed JSON object. `JSON.parse` keeps the last of
duplicate keys, hence the fold from the left with later entries winning. -/
def lookupJ (kvs : List (String × Json)) (k : String) : Option Json :=
  kvs.foldl (fun acc p => if p.1 = k then some p.2 else acc) none

/-- Named property access on a JavaScript value: only objects carry the
named properties the program reads (`initialized`, `version`, `commands`);
on every other value the access yields `undefined` (`none`). -/
def jField (j : Json) (k : String) : Option Json :=
  match j with
  | .obj kvs => lookupJ kvs k
  | _ => none

/-- The `TypeError` raised by `state.commands.length` when `commands` is
`null`. -/
def lengthTypeError : Err :=
  ⟨none, "Cannot read properties of null (reading 'length')"⟩

/-- Evaluation of `.length` on a JavaScript value: arrays and strings have a
numeric length, `null` raises a `TypeError`, other primitives yield
`undefined` (`none`); for plain objects the `length` key is consulted (a
non-numeric `length` value is approximated as `undefined`, which is sound
for every comparison the program performs on parsed state files). -/
def jsLength : Json → Except Err (Option Int)
  | .null => .error lengthTypeError
  | .arr l => .ok (some (l.length : Int))
  | .str s => .ok (some (s.length : Int))
  | .obj kvs =>
    .ok (match lookupJ kvs "length" with
         | some (.num n) => some n
         | _ => none)
  | .num _ => .ok none
  | .bool _ => .ok none

/-- Content of the state file `.opencode/opennote-state.json`: `none` when
the file does not exist, `some none` when it exists but is not syntactically
valid JSON, `some (some j)` when its contents parse to `j`. -/
abbrev StateFile : Type := Option (Option Json)

/-- Translation of `loadState` from `state-manager.ts`: returns `null`
(modelled `none`) when the file is absent or `JSON.parse` throws (the
`catch` swallows the failure), and otherwise returns the parsed value
unchecked — the `as InstallationState` cast performs no runtime validation.
A parsed JSON `null` is returned as the JavaScript value `null` and is thus
indistinguishable from absence to every caller. -/
def loadState (f : StateFile) : Option Json :=
  match f with
  | none => none
  | some none => none
  | some (some j) =>
    match j with
    | .null => none
    | _ => some j

/-- Translation of `isInitialized` from `state-manager.ts`: the value of the
expression `state !== null && state.initialized`, which is the boolean
`false` for an absent state and otherwise the raw `initialized` property
(possibly `undefined`). -/
def isInitializedV (f : StateFile) : Option Json :=
  match loadState f with
  | none => some (.bool false)
  | some st => jField st "initialized"

/-- Test for strict equality `=== true` of a JavaScript value. -/
def jsStrictTrue : Option Json → Bool
  | some (.bool true) => true
  | _ => false

/-- Translation of `isStateValid` from the state manager: `false` for an
absent (or falsy parsed) state, otherwise the value of
`state.initialized === true && state.commands !== undefined &&
state.commands.length > 0`, where the last conjunct can raise a `TypeError`
when `commands` is `null`. -/
def isStateValidE (f : StateFile) : Except Err Bool :=
  match loadState f with
  | none => .ok false
  | some st =>
    if jsFalsy st then .ok false
    else if !jsStrictTrue (jField st "initialized") then .ok false
    else
      match jField st "commands" with
      | none => .ok false
      | some cmds =>
        match jsLength cmds with
        | .error e => .error e
        | .ok n? => .ok (match n? with
                         | some n => decide (0 < n)
                         | none => false)

/-- Value of a digit string under JavaScript `Number(...)`; the version
segments the program compares are digit-only (the empty segment, like the
empty string, converts to `0`), every other segment converts to `NaN`,
modelled as `none`. -/
def jsNumber (s : String) : Option Int :=
  if s.data.all Char.isDigit then
    some (s.data.foldl (fun a c => a * 10 + ((c.toNat : Int) - 48)) 0)
  else none

/-- Indexing `parts[i] ?? 0` of `compareVersions`: an out-of-range read
yields `undefined`, which `?? 0` replaces by `0`; an in-range `NaN` segment
is kept (the nullish coalescing does not touch it). -/
def segAt (l : List (Option Int)) (i : Nat) : Option Int :=
  (l.get? i).getD (some 0)

/-- JavaScript `>` on two possibly-`NaN` numbers: any comparison involving
`NaN` is false. -/
def segGT : Option Int → Option Int → Bool
  | some a, some b => decide (b < a)
  | _, _ => false

/-- Character loop of `split(".")`: cut the remaining characters at every
dot, `acc` holding the current segment reversed. -/
def splitDotsGo : List Char → List Char → List String
  | [], acc => [String.mk acc.reverse]
  | c :: cs, acc =>
    if c = '.' then String.mk acc.reverse :: splitDotsGo cs []
    else splitDotsGo cs (c :: acc)

/-- JavaScript `v.split(".")` on a string: the empty string yields `[""]`,
and every dot separates two (possibly empty) segments. -/
def splitDots (s : String) : List String :=
  splitDotsGo s.data []

/-- Index loop of `compareVersions`, running `i` from the given start for
`fuel` more iterations (the source iterates `i` over
`[0, max parts1.length parts2.length)`). -/
def cmpLoop (p1 p2 : List (Option Int)) : Nat → Nat → Int
  | _, 0 => 0
  | i, fuel + 1 =>
    if segGT (segAt p1 i) (segAt p2 i) then 1
    else if segGT (segAt p2 i) (segAt p1 i) then -1
    else cmpLoop p1 p2 (i + 1) fuel

/-- Translation of `compareVersions` from the state manager: split both
versions on dots, convert the segments with `Number`, and compare them
componentwise with missing segments read as `0`. -/
def compareVersions (v1 v2 : String) : Int :=
  let parts1 := (splitDots v1).map jsNumber
  let parts2 := (splitDots v2).map jsNumber
  cmpLoop parts1 parts2 0 (max parts1.length parts2.length)

/-- Translation of `needsUpdate` from the state manager, at the type the
source declares (`currentVersion : string | undefined`): the guard
`if (!currentVersion) return true` fires on `undefined` and on the empty
string, otherwise the result is `compareVersions(newVersion, currentVersion) > 0`. -/
def needsUpdate (currentVersion : Option String) (newVersion : String) : Bool :=
  match currentVersion with
  | none => true
  | some s => if s = "" then true else decide (0 < compareVersions newVersion s)

/-- The `TypeError` raised by `v2.split(".")` inside `compareVersions` when
the installed `version` field is a truthy non-string. -/
def splitTypeError : Err :=
  ⟨none, "v2.split is not a function"⟩

/-- Evaluation of `needsUpdate(state.version, version)` on the raw
JavaScript value of `state.version`: falsy values (including `undefined`,
`null`, `0`, `false` and the empty string) short-circuit to `true`; a truthy
string is compared; any other truthy value makes `compareVersions` throw a
`TypeError` when it calls `.split` on it. -/
def needsUpdateE (currentVersion : Option Json) (newVersion : String) :
    Except Err Bool :=
  if !jsTruthy currentVersion then .ok true
  else
    match currentVersion with
    | some (.str s) => .ok (decide (0 < compareVersions newVersion s))
    | _ => .error splitTypeError

/-- The `source` enum of an installed-command record
(`types/index.ts`). -/
inductive CmdSource where
  | predefined : CmdSource
  | user : CmdSource
  | project : CmdSource
deriving DecidableEq, Repr

/-- String form of a `source` value, as serialised to JSON. -/
def sourceStr : CmdSource → String
  | .predefined => "predefined"
  | .user => "user"
  | .project => "project"

/-- The `CommandRegistration` record from `types/index.ts`. -/
structure CommandRegistration where
  name : String
  installedAt : String
  version : String
  source : CmdSource
deriving DecidableEq, Repr

/-- The `InstallationState` record from `types/index.ts`; the optional
fields model properties that may be `undefined`. -/
structure InstallationState where
  initialized : Bool
  version : Option String
  installedAt : Option String
  commands : List CommandRegistration
deriving DecidableEq, Repr

/-- JSON encoding of one command registration, with the key order
`JSON.stringify` emits. -/
def encodeReg (r : CommandRegistration) : Json :=
  .obj [("name", .str r.name), ("installedAt", .str r.installedAt),
        ("version", .str r.version), ("source", .str (sourceStr r.source))]

/-- Optional string property: `JSON.stringify` omits keys whose value is
`undefined`. -/
def optField (k : String) : Option String → List (String × Json)
  | none => []
  | some s => [(k, .str s)]

/-- JSON encoding of an installation state, with the key order
`JSON.stringify` emits and `undefined` keys omitted. -/
def encodeState (st : InstallationState) : Json :=
  .obj (("initialized", .bool st.initialized) ::
        (optField "version" st.version ++ optField "installedAt" st.installedAt ++
         [("commands", .arr (st.commands.map encodeReg))]))

/-- Read an optional string property back from a parsed state object:
absent means `undefined`, a present value must be a string. -/
def readOptStr (j : Json) (k : String) : Option (Option String)
  :=
  match jField j k with
  | none => some none
  | some (.str s) => some (some s)
  | some _ => none

/-- Decode a `source` string back to the enum. -/
def decodeSource : Json → Option CmdSource
  | .str "predefined" => some .predefined
  | .str "user" => some .user
  | .str "project" => some .project
  | _ => none

/-- Decode one command registration from parsed JSON. -/
def decodeReg (j : Json) : Option CommandRegistration :=
  match jField j "name", jField j "installedAt", jField j "version" with
  | some (.str n), some (.str ia), some (.str v) =>
    match decodeSource ((jField j "source").getD .null) with
    | some s => some ⟨n, ia, v, s⟩
    | none => none
  | _, _, _ => none

/-- Decode a list of command registrations, failing if any entry fails. -/
def decodeRegs : List Json → Option (List CommandRegistration)
  | [] => some []
  | j :: js =>
    match decodeReg j, decodeRegs js with
    | some r, some rs => some (r :: rs)
    | _, _ => none

/-- Decode an installation state as a typed consumer reads it back: the
typed fields of the parsed object must have the declared shapes. This is
the deep-equality view used to compare a reloaded state with the state that
was saved. -/
def decodeState (j : Json) : Option InstallationState :=
  match jField j "initialized" with
  | some (.bool b) =>
    match readOptStr j "version", readOptStr j "installedAt" with
    | some v, some ia =>
      match jField j "commands" with
      | some (.arr l) =>
        match decodeRegs l with
        | some cs => some ⟨b, v, ia, cs⟩
        | none => none
      | _ => none
    | _, _ => none
  | _ => none

/-- The `PredefinedCommand` definition from `types/index.ts`; `agent` and
`model` are optional. -/
structure PredefinedCommand where
  name : String
  description : String
  template : String
  agent : Option String
  model : Option String
deriving DecidableEq, Repr

/-- Result shape of `validateCommand` from `command-registry.ts`. -/
structure ValidationResult where
  valid : Bool
  errors : List String
deriving DecidableEq, Repr

/-- Character class of the name pattern `^[a-z0-9-]+$`. -/
def isNameChar (c : Char) : Bool :=
  c.isLower || c.isDigit || c == '-'

/-- JavaScript whitespace characters occurring in the program's data; used
to model `trim().length === 0`, which holds exactly when every character of
the string is whitespace. -/
def isJsWs (c : Char) : Bool :=
  c == ' ' || c == '\t' || c == '\n' || c == '\r'

/-- The closed agent enum `AGENT_VALUES` from `command-registry.ts`. -/
def AGENT_VALUES : List String :=
  ["general", "plan", "build", "explore"]

/-- Translation of `validateCommand` from `command-registry.ts`: the five
checks run in order and accumulate all violated rules; empty-string `agent`
is falsy in JavaScript, so the enum check is skipped for it. -/
def validateCommand (c : PredefinedCommand) : ValidationResult :=
  let e1 := if c.name = "" || !(c.name.data.all isNameChar) then
              ["Name must be alphanumeric with hyphens only"] else []
  let e2 := if c.description = "" || c.description.data.all isJsWs then
              ["Description is required and cannot be empty"] else []
  let e3 := if c.description ≠ "" && decide (200 ≤ c.description.length) then
              ["Description must be less than 200 characters"] else []
  let e4 := if c.template = "" || c.template.data.all isJsWs then
              ["Template is required and cannot be empty"] else []
  let e5 := match c.agent with
            | some a => if a ≠ "" && !(AGENT_VALUES.contains a) then
                          ["Agent must be one of: general, plan, build, explore"]
                        else []
            | none => []
  let errors := e1 ++ e2 ++ e3 ++ e4 ++ e5
  ⟨errors.isEmpty, errors⟩

/-- The interpolated agent fragment of the frontmatter template literal in
`command-installer.ts`: `command.agent ? agent-line : ""`. -/
def agentPart (c : PredefinedCommand) : String :=
  match c.agent with
  | some a => if a = "" then "" else "agent: " ++ a
  | none => ""

/-- The interpolated model fragment of the frontmatter template literal. -/
def modelPart (c : PredefinedCommand) : String :=
  match c.model with
  | some m => if m = "" then "" else "model: " ++ m
  | none => ""

/-- Content written by `createCommandFile`: the template literal keeps the
newline after each interpolation, so an absent (or empty) `agent`/`model`
leaves an empty line in the header. -/
def createFileContent (c : PredefinedCommand) : String :=
  "---\ndescription: " ++ c.description ++ "\n" ++ agentPart c ++ "\n" ++
    modelPart c ++ "\n---\n" ++ c.template

/-- The installation root as the init command sees it: the state file, the
files of `.opencode/commands` (name, content) and whether that directory
exists. -/
structure FS where
  stateFile : StateFile
  cmdFiles : List (String × String)
  cmdDirExists : Bool

/-- The filesystem state with no installation artifacts at all. -/
def emptyFS : FS :=
  ⟨none, [], false⟩

/-- Translation of `cleanupInstallation` from `init.ts`:
`fs.rm(".opencode", {recursive, force})` removes the state file and the
whole commands directory in one operation. -/
def cleanupInstallation (_ : FS) : FS :=
  emptyFS

/-- Overwriting write of one command file (`writeFile` truncates an
existing file of the same name). -/
def upsertFile (files : List (String × String)) (n c : String) :
    List (String × String) :=
  match files with
  | [] => [(n, c)]
  | (k, v) :: rest =>
    if k = n then (n, c) :: rest else (k, v) :: upsertFile rest n c

/-- Per-entry loop of `installCommands`: validate each command (stopping
with the `Invalid command definition` error on the first failure) and write
its rendered file. -/
def installGo : List PredefinedCommand → FS → FS × Option Err
  | [], fs => (fs, none)
  | c :: cs, fs =>
    let val := validateCommand c
    if !val.valid then
      (fs, some ⟨none, "Invalid command definition for " ++ c.name ++ ": " ++
                 String.intercalate ", " val.errors⟩)
    else
      installGo cs
        { fs with cmdFiles := upsertFile fs.cmdFiles (c.name ++ ".md")
                                (createFileContent c) }

/-- Translation of `installCommands` from `command-installer.ts`: ensure
the commands directory exists, then install every entry in order. -/
def installCommandsFS (catalog : List PredefinedCommand) (fs : FS) :
    FS × Option Err :=
  installGo catalog { fs with cmdDirExists := true }

/-- Translation of `saveState`: persist the serialised record, overwriting
prior content (the containing directory is created as needed). -/
def saveStateFS (st : InstallationState) (fs : FS) : FS :=
  { fs with stateFile := some (some (encodeState st)) }

/-- The new state object built in step 4b of the init action, with
`initialized: true`, the running program's version, the current timestamp
and one `predefined` record per catalog entry. -/
def newInstallationState (version installedAt : String)
    (catalog : List PredefinedCommand) : InstallationState :=
  ⟨true, some version, some installedAt,
   catalog.map (fun c => ⟨c.name, installedAt, version, .predefined⟩)⟩

/-- The install-and-persist operation the init action passes to
`retryOperation`: install all catalog commands, then save the new state.
The timestamp `now` abstracts `new Date().toISOString()`. -/
def realScript (catalog : List PredefinedCommand) (version now : String) :
    Nat → FS → FS × Option Err :=
  fun _ fs =>
    match installCommandsFS catalog fs with
    | (fs1, none) => (saveStateFS (newInstallationState version now catalog) fs1, none)
    | (fs1, some e) => (fs1, some e)

/-- Retry loop over a filesystem-mutating operation, mirroring
`retryOperation`; an abstract `script` gives the effect of each attempt on
the filesystem together with the error it throws, so failed attempts can
leave partial writes behind. -/
def retryGoFS (script : Nat → FS → FS × Option Err) :
    Nat → Nat → FS → Option Err → FS × Option Err
  | _, 0, fs, last => (fs, some (last.getD ⟨none, ""⟩))
  | attempt, fuel + 1, fs, _ =>
    match script attempt fs with
    | (fs1, none) => (fs1, none)
    | (fs1, some e) =>
      if isTransientError e then retryGoFS script (attempt + 1) fuel fs1 (some e)
      else (fs1, some e)

/-- The retry-wrapped install-and-persist sequence with the source's
`maxRetries = 3`. -/
def retryOpFS (script : Nat → FS → FS × Option Err) (fs : FS) :
    FS × Option Err :=
  retryGoFS script 1 3 fs none

/-- Error classification of the catch handler in `init.ts` (permission,
disk space, read-only filesystem, other); it only selects the diagnostic
message, every branch performs cleanup. -/
inductive ErrClass where
  | permission : ErrClass
  | diskSpace : ErrClass
  | readOnlyFs : ErrClass
  | other : ErrClass
deriving DecidableEq, Repr

/-- The classification tests of the catch handler, in source order. -/
def classifyError (e : Err) : ErrClass :=
  if e.code == some "EACCES" || strIncludes e.message "permission denied" then
    .permission
  else if e.code == some "ENOSPC" || strIncludes e.message "no space left" then
    .diskSpace
  else if e.code == some "EROFS" || strIncludes e.message "read-only" then
    .readOnlyFs
  else .other

/-- User-visible outcome of one init run. -/
inductive Report where
  | updateAvailable : Report
  | alreadyInitialized : Report
  | installed : Report
  | failed : ErrClass → Report
deriving DecidableEq, Repr

/-- The filesystem the install phase starts from: scenario 2 of the init
action performs cleanup first when the state was initialized-but-invalid or
`--force` was given. -/
def preInstallFS (force initialized stateValid : Bool) (fs : FS) : FS :=
  if (initialized && !stateValid) || force then cleanupInstallation fs else fs

/-- The retry-wrapped core installation flow of the init action; a terminal
error surfaces together with the filesystem holding whatever partial writes
occurred. -/
def installPhase (script : Nat → FS → FS × Option Err) (fs1 : FS) :
    Except (Err × FS) (FS × Report) :=
  match retryOpFS script fs1 with
  | (fs2, none) => .ok (fs2, .installed)
  | (fs2, some e) => .error (e, fs2)

/-- The `try` block of the init action in `init.ts`: compute the
initialization status, short-circuit scenario 1 (initialized, valid, no
force) into a report-only no-op, otherwise clean up when required and run
the retry-wrapped install-and-persist sequence. Exceptions escaping any
step carry the filesystem they leave behind. -/
def runInitTry (force : Bool) (version : String)
    (script : Nat → FS → FS × Option Err) (fs0 : FS) :
    Except (Err × FS) (FS × Report) :=
  let initialized := jsTruthy (isInitializedV fs0.stateFile)
  match isStateValidE fs0.stateFile with
  | .error e => .error (e, fs0)
  | .ok stateValid =>
    if initialized && stateValid && !force then
      match loadState fs0.stateFile with
      | some st =>
        match needsUpdateE (jField st "version") version with
        | .error e => .error (e, fs0)
        | .ok b => .ok (fs0, if b then .updateAvailable else .alreadyInitialized)
      | none => .ok (fs0, .alreadyInitialized)
    else
      installPhase script (preInstallFS force initialized stateValid fs0)

/-- One run of the `opennote init` action: exit code, final filesystem and
report. The catch handler classifies the error, performs cleanup once more
and exits with code 1; otherwise the process terminates normally with exit
code 0. -/
def runInit (force : Bool) (version : String)
    (script : Nat → FS → FS × Option Err) (fs0 : FS) : Nat × FS × Report :=
  match runInitTry force version script fs0 with
  | .ok (fs, r) => (0, fs, r)
  | .error (e, fs) => (1, cleanupInstallation fs, .failed (classifyError e))

/-- The `daily-note` entry of `PREDEFINED_COMMANDS` in `commands/index.ts`. -/
def daily_note_cmd : PredefinedCommand :=
  ⟨"daily-note", "Create a structured daily note with priorities, tasks, and reflections",
   "# Daily Note - \x7b\x7bDATE\x7d\x7d\n\n## 🎯 Top 3 Priorities\n\n1. \n2. \n3. \n\n## 📋 Tasks\n\n- [ ] High priority task\n- [ ] Medium priority task\n- [ ] Low priority task\n\n## 💭 Quick Notes\n\nCapture fleeting thoughts, reminders, or important information.\n\n- Bullet point for quick capture\n- Another thought or reminder\n\n## ✅ Completed\n\nCelebrate wins and track what you accomplished.\n\n- [x] Task completed today\n- [x] Another achievement\n\n## 🌟 Reflection\n\n**What went well?**\n\n\n**What could be improved?**\n\n\n**What am I grateful for?**\n\n\n## 📌 Tomorrow's Focus\n\n- \n- \n- \n\n## 🔗 Links\n\n- Related notes: [[NOTE_ID]]\n- External resources: [Link description](url)\n\n---\n*Created at \x7b\x7bDATE\x7d\x7d*\n",
   some "general", none⟩

/-- The `meeting-note` entry of `PREDEFINED_COMMANDS` in `commands/index.ts`. -/
def meeting_note_cmd : PredefinedCommand :=
  ⟨"meeting-note", "Create comprehensive meeting notes with preparation, discussion, and follow-ups",
   "# Meeting Note\n\n**Date:** \x7b\x7bDATE\x7d\x7d\n**Time:** \x7b\x7bSTART_TIME\x7d\x7d - \x7b\x7bEND_TIME\x7d\x7d\n**Meeting Type:** \x7b\x7bTYPE\x7d\x7d\n**Location/Platform:** \x7b\x7bLOCATION\x7d\x7d\n**Facilitator:** \x7b\x7bFACILITATOR\x7d\x7d\n\n## 👥 Attendees\n\n- Name 1 - Role/Department\n- Name 2 - Role/Department\n- Name 3 - Role/Department\n- Name 4 - Role/Department\n\n## 📋 Pre-meeting Notes\n\n**Purpose of this meeting:**\n\n\n**Documents to review:**\n\n\n**Questions to ask:**\n\n\n## 🎯 Agenda & Discussion\n\n### 1. Agenda Item 1\n**Discussion:**\n\n**Decision:**\n\n**Owner:** \n\n### 2. Agenda Item 2\n**Discussion:**\n\n**Decision:**\n\n**Owner:** \n\n### 3. Agenda Item 3\n**Discussion:**\n\n**Decision:**\n\n**Owner:** \n\n## ✅ Action Items\n\n| Action Item | Owner | Due Date | Status |\n|-------------|-------|----------|--------|\n| Action description | Name | Date | 🔴 Not Started |\n| Action description | Name | Date | 🟡 In Progress |\n| Action description | Name | Date | 🟢 Completed |\n\n## 📝 Key Takeaways\n\n1. \n2. \n3. \n\n## ❓ Open Questions\n\n- Question 1: (Who to follow up with?)\n- Question 2: (Who to follow up with?)\n\n## 📅 Next Meeting\n\n**Date:** \n**Agenda:** \n\n## 🔗 References\n\n- Related documents: [[DOC_ID]]\n- Previous meeting: [[MEETING_ID]]\n\n---\n*Meeting ID: \x7b\x7bMEETING_ID\x7d\x7d*\n",
   some "general", none⟩

/-- The `idea-note` entry of `PREDEFINED_COMMANDS` in `commands/index.ts`. -/
def idea_note_cmd : PredefinedCommand :=
  ⟨"idea-note", "Capture and develop ideas with structured analysis and implementation planning",
   "# Idea Note\n\n**Title:** \x7b\x7bTITLE\x7d\x7d\n**Created:** \x7b\x7bDATE\x7d\x7d\n**Status:** 💡 Draft\n\n## 📌 One-Liner Pitch\n\nSummarize your idea in one compelling sentence (elevator pitch).\n\n## 🎯 Problem Statement\n\nWhat problem does this idea solve? Be specific about the pain points.\n\n## 💡 The Solution\n\nDescribe your solution clearly and concisely. How does it address the problem?\n\n## 📊 Impact Analysis\n\n### Expected Benefits\n- Benefit 1:\n- Benefit 2:\n- Benefit 3:\n\n### Success Metrics\n- Metric 1: (How will you measure success?)\n- Metric 2: (Quantifiable goals)\n- Metric 3: (KPIs)\n\n### Resources Required\n- Time: \n- Budget:\n- Team/Expertise:\n- Tools/Technology:\n\n## 🗺️ Implementation Roadmap\n\n### Phase 1: Planning\n- [ ] Research and validation\n- [ ] Stakeholder alignment\n- [ ] Define requirements\n\n### Phase 2: Development\n- [ ] Build prototype/MVP\n- [ ] Test and iterate\n- [ ] Gather feedback\n\n### Phase 3: Launch\n- [ ] Prepare launch materials\n- [ ] Execute rollout plan\n- [ ] Monitor results\n\n## ⚠️ Risks & Mitigation\n\n| Risk | Probability | Impact | Mitigation Strategy |\n|------|-------------|--------|-------------------|\n| Risk 1 | High/Medium/Low | High/Medium/Low | Strategy to address |\n| Risk 2 | High/Medium/Low | High/Medium/Low | Strategy to address |\n\n## 🔄 Alternatives Considered\n\nWhat other approaches did you consider? Why did you choose this one?\n\n1. Alternative 1: \n2. Alternative 2: \n\n## 🔗 Related Ideas & Resources\n\n- Related notes: [[NOTE_ID]]\n- Inspiration source: [URL or reference]\n- Similar concepts: [[IDEA_ID]]\n\n## ✅ Next Steps\n\n- [ ] Immediate action (this week)\n- [ ] Short-term action (this month)\n- [ ] Long-term action (this quarter)\n\n---\n*Idea ID: \x7b\x7bIDEA_ID\x7d\x7d*\n*Category: \x7b\x7bCATEGORY\x7d\x7d*\n*Priority: \x7b\x7bPRIORITY\x7d\x7d*\n",
   some "general", none⟩

/-- The `zettel-note` entry of `PREDEFINED_COMMANDS` in `commands/index.ts`. -/
def zettel_note_cmd : PredefinedCommand :=
  ⟨"zettel-note", "Create atomic zettelkasten card notes with permanent IDs and networked thinking",
   "# Zettel Note\n\n**ID:** \x7b\x7bZETTEL_ID\x7d\x7d\n**Created:** \x7b\x7bDATE\x7d\x7d\n**Modified:** \x7b\x7bDATE\x7d\x7d\n\n## 💎 Core Idea\n\nWrite a single, atomic idea that can stand on its own. Keep it concise (1-2 sentences). This should be the essence of your note.\n\nExample: \"Atomic notes focus on one idea only, making them easier to link and reuse across different contexts.\"\n\n## 📖 Explanation\n\nElaborate on the core idea. Provide context, examples, or deeper understanding while maintaining atomicity. Ask yourself:\n\n- Why is this idea important?\n- What are the key nuances?\n- How does this work in practice?\n\nExpand with 2-4 paragraphs that clarify and support the core idea.\n\n## 🔗 References\n\n### Links to Other Notes\nConnect to related zettels. Use double-bracket syntax for bi-directional linking.\n\n- [[NOTE_ID]]: Brief context about why this link matters\n- [[NOTE_ID]]: How this note relates\n- [[NOTE_ID]]: Supporting or contrasting idea\n\n### Sources\nWhere did this idea come from? Give proper attribution.\n\n- **Book:** Author, Title, Year, Page(s)\n- **Article:** Title, Publication, URL, Date\n- **Video/Video:** Title, Creator, Timestamp\n- **Conversation:** Person, Date, Context\n- **Original thought:** Mark as [Original]\n\n## 🏷️ Tags\n\nUse descriptive tags for categorization and discovery. Use consistent tag conventions.\n\n#topic #subtopic #concept #domain #perspective\n\n**Suggested tags:** Replace with relevant tags for your note system\n\n## 💭 Context & Relevance\n\n**When to use this idea:** In what situations does this insight apply?\n\n**Why it matters now:** What makes this relevant in your current work or thinking?\n\n**Future connections:** How might this connect to future ideas?\n\n## 🎯 Application & Examples\n\n**Practical use case:** How would you apply this in real life?\n\n**Counter-examples:** When does this NOT apply? What are the limitations?\n\n**Key questions raised:** What questions does this idea provoke?\n\n## 📝 Personal Notes\n\nYour thoughts, reactions, or questions about this idea. These are for personal context and won't appear in the final output.\n\n---\n*Zettelkasten ID: \x7b\x7bZETTEL_ID\x7d\x7d*\n*Links: \x7b\x7bLINK_COUNT\x7d\x7d*\n*Tags: \x7b\x7bTAG_COUNT\x7d\x7d*\n",
   some "general", none⟩

/-- The `project-note` entry of `PREDEFINED_COMMANDS` in `commands/index.ts`. -/
def project_note_cmd : PredefinedCommand :=
  ⟨"project-note", "Create comprehensive project planning and tracking notes with goals, milestones, and resources",
   "# Project Note\n\n**Project Name:** \x7b\x7bPROJECT_NAME\x7d\x7d\n**Status:** 🟢 Planning / 🟡 In Progress / 🟡 On Hold / 🔴 Blocked / ✅ Completed\n**Created:** \x7b\x7bDATE\x7d\x7d\n**Last Updated:** \x7b\x7bDATE\x7d\x7d\n\n## 🎯 Project Overview\n\n### Vision Statement\nWhat is the ultimate goal of this project? What impact will it have?\n\n### Project Scope\n**In scope:**\n\n\n**Out of scope:**\n\n\n### Success Criteria\n- [ ] Criteria 1: (Measurable outcome)\n- [ ] Criteria 2: (Measurable outcome)\n- [ ] Criteria 3: (Measurable outcome)\n\n## 📅 Timeline & Milestones\n\n| Milestone | Target Date | Actual Date | Status |\n|-----------|-------------|-------------|--------|\n| Milestone 1 | Date | Date | 🟢/🟡/🔴 |\n| Milestone 2 | Date | Date | 🟢/🟡/🔴 |\n| Milestone 3 | Date | Date | 🟢/🟡/🔴 |\n\n**Start Date:** \n**End Date:** \n**Current Phase:** \n\n## 👥 Team & Stakeholders\n\n**Project Manager:** \n\n**Team Members:**\n- Name - Role - Responsibilities\n\n**Stakeholders:**\n- Name - Role - Interests\n\n## 📋 Deliverables\n\n| Deliverable | Owner | Due Date | Status |\n|-------------|-------|----------|--------|\n| Deliverable 1 | Name | Date | 🟢/🟡/🔴 |\n| Deliverable 2 | Name | Date | 🟢/🟡/🔴 |\n\n## 🏗️ Work Breakdown\n\n### Phase 1: Phase Name\n**Duration:** \n**Goal:** \n\n**Tasks:**\n- [ ] Task 1\n- [ ] Task 2\n- [ ] Task 3\n\n### Phase 2: Phase Name\n**Duration:** \n**Goal:** \n\n**Tasks:**\n- [ ] Task 1\n- [ ] Task 2\n\n## 📊 Budget & Resources\n\n**Budget Allocated:** \n**Budget Spent:** \n**Remaining:** \n\n**Resources:**\n- Tool 1:\n- Tool 2:\n- Other resources:\n\n## ⚠️ Risks & Issues\n\n| Risk/Issue | Priority | Owner | Status | Mitigation/Resolution |\n|------------|----------|-------|--------|---------------------|\n| Risk 1 | High/Medium/Low | Name | Open/Closed | Action plan |\n| Issue 2 | High/Medium/Low | Name | Open/Closed | Resolution |\n\n## 📝 Notes & Decisions\n\n### Key Decisions\n- **Date:** Decision description and rationale\n- **Date:** Decision description and rationale\n\n### Meeting Notes\n- **[Date]** Meeting summary and key points\n\n### Lessons Learned\n- What went well:\n- What could be improved:\n- What to do differently next time:\n\n## 🔗 Related Resources\n\n- Documents: [[DOC_ID]]\n- Related projects: [[PROJECT_ID]]\n- External resources: [Link](URL)\n\n---\n*Project ID: \x7b\x7bPROJECT_ID\x7d\x7d*\n*Phase: \x7b\x7bCURRENT_PHASE\x7d\x7d*\n*Progress: \x7b\x7bPERCENTAGE\x7d\x7d%*\n",
   some "general", none⟩

/-- The `learning-note` entry of `PREDEFINED_COMMANDS` in `commands/index.ts`. -/
def learning_note_cmd : PredefinedCommand :=
  ⟨"learning-note", "Document learning with concepts, insights, and action items for knowledge retention",
   "# Learning Note\n\n**Topic:** \x7b\x7bTOPIC\x7d\x7d\n**Date Learned:** \x7b\x7bDATE\x7d\x7d\n**Source/Context:** \x7b\x7bSOURCE\x7d\x7d\n**Learning Type:** 📚 Reading / 🎓 Course / 💻 Tutorial / 🎥 Video / 👥 Workshop / 🔄 Experience\n\n## 🎯 Learning Objective\n\nWhat did you set out to learn? Why is this important?\n\n## 📖 Key Concepts\n\n### Concept 1\n**Definition:** \n**Example:** \n**Why it matters:** \n\n### Concept 2\n**Definition:** \n**Example:** \n**Why it matters:** \n\n### Concept 3\n**Definition:** \n**Example:** \n**Why it matters:** \n\n## 💡 Key Insights\n\n**Insight 1:** (An \"aha!\" moment or new understanding)\n\n**Insight 2:** \n\n**Insight 3:** \n\n## 🔗 Connections\n\n### To Previous Knowledge\nHow does this connect to what you already know?\n\n- Links to related notes: [[NOTE_ID]]\n- Similar concepts learned before:\n\n### To Future Applications\nHow might you use this in the future?\n\n### Across Domains\nDoes this concept apply in other areas?\n\n## 🤔 Questions & Clarifications\n\n**Questions I still have:**\n\n- Question 1: (What needs more exploration?)\n- Question 2: \n- Question 3: \n\n**Areas of confusion:**\n\n## 📝 Notes & Observations\n\nAdditional details, examples, or thoughts that don't fit elsewhere.\n\n## ✅ Practical Application\n\n### How I Plan to Use This\n- Application 1: \n- Application 2: \n- Application 3: \n\n### Practice Exercises\n- [ ] Exercise 1: (Specific practice task)\n- [ ] Exercise 2: \n- [ ] Exercise 3: \n\n### Teaching Others\nHow would you explain this to someone else? (Teaching reinforces learning)\n\n## 📚 Additional Resources\n\n- Resource 1: [Title/URL](link) - Why it's useful\n- Resource 2: [Title/URL](link) - Why it's useful\n- Resource 3: [Title/URL](link) - Why it's useful\n\n## 🔄 Review Plan\n\n**Next review date:** \n\n**Review questions:**\n- Do I still understand this?\n- Have I applied this? How?\n- What new insights have emerged?\n\n---\n*Learning ID: \x7b\x7bLEARNING_ID\x7d\x7d*\n*Mastery Level:* ⭐⭐☆☆☆\n*Reviewed:* \x7b\x7bREVIEW_COUNT\x7d\x7d times\n",
   some "general", none⟩

/-- The bundled catalog `PREDEFINED_COMMANDS` from `commands/index.ts`. -/
def PREDEFINED_COMMANDS : List PredefinedCommand :=
  [daily_note_cmd, meeting_note_cmd, idea_note_cmd, zettel_note_cmd, project_note_cmd, learning_note_cmd]

/-- Modelled from the spec: a parsed value has the expected
`InstallationState` shape when its typed fields decode (boolean
`initialized`, optional string `version`/`installedAt`, and an array of
well-formed command records). -/
def expectedShape (j : Json) : Bool :=
  (decodeState j).isSome

/-- Numeric value of a digit-only version segment (the empty segment, like
the empty string under `Number`, counts as 0). -/
def segNat (s : String) : Nat :=
  s.data.foldl (fun a c => a * 10 + (c.toNat - 48)) 0

/-- Modelled from the spec: the dot-separated numeric segments of a
version string. -/
def specSegs (s : String) : List Nat :=
  (splitDots s).map segNat

/-- Modelled from the spec: component-wise comparison of two segment
lists, with missing segments treated as 0. -/
def specCmp : List Nat → List Nat → Int
  | [], [] => 0
  | [], b :: bs => if 0 < b then -1 else specCmp [] bs
  | a :: as, [] => if 0 < a then 1 else specCmp as []
  | a :: as, b :: bs => if b < a then 1 else if a < b then -1 else specCmp as bs

/-- Modelled from the spec: the catalog version is strictly greater than
the installed one under the component-wise comparison. -/
def specGT (catalogV installedV : String) : Bool :=
  specCmp (specSegs catalogV) (specSegs installedV) == 1

/-- Modelled from the spec: the claimed `needsUpdate` — true iff the
installed version is absent or the catalog version is strictly greater. -/
def specNeedsUpdate (iv : Option String) (cv : String) : Bool :=
  match iv with
  | none => true
  | some s => specGT cv s

/-- Version strings made of digits and dots, the domain on which the
segment-wise `Number` conversion is numeric. -/
def isVersionString (s : String) : Bool :=
  s.data.all (fun c => c.isDigit || c == '.')

/-- Modelled from the spec: the claimed command-file rendering, in which
the `agent:` and `model:` lines are omitted entirely when the fields are
absent. -/
def claimRendering (c : PredefinedCommand) : String :=
  "---\ndescription: " ++ c.description ++ "\n" ++
  (match c.agent with
   | some a => "agent: " ++ a ++ "\n"
   | none => "") ++
  (match c.model with
   | some m => "model: " ++ m ++ "\n"
   | none => "") ++
  "---\n" ++ c.template

/-- Modelled from the spec as amended: the agent header line, empty when
the field is absent (undefined or the empty string). -/
def claimAgentLine (c : PredefinedCommand) : String :=
  match c.agent with
  | some a => if a = "" then "" else "agent: " ++ a
  | none => ""

/-- Modelled from the spec as amended: the model header line, empty when
the field is absent (undefined or the empty string). -/
def claimModelLine (c : PredefinedCommand) : String :=
  match c.model with
  | some m => if m = "" then "" else "model: " ++ m
  | none => ""

/-- Modelled from the spec as amended: the written file consists of the
header lines `---`, the description line, the agent line, the model line
(each of the latter two left empty rather than omitted when its field is
absent) and `---`, joined by newlines, followed by the template body
verbatim. -/
def claimRenderingAmended (c : PredefinedCommand) : String :=
  String.intercalate "\n" ["---", "description: " ++ c.description,
    claimAgentLine c, claimModelLine c, "---", ""] ++ c.template

/-- Folding the per-command writes over a catalog. -/
def installedFiles (catalog : List PredefinedCommand)
    (files : List (String × String)) : List (String × String) :=
  catalog.foldl
    (fun acc c => upsertFile acc (c.name ++ ".md") (createFileContent c)) files

/-- A pre-existing corrupted state file as the claim describes it:
syntactically invalid JSON, or a JSON object missing the `commands` or
`initialized` field. -/
def corruptedStateFile (f : StateFile) : Prop :=
  f = some none ∨
    ∃ kvs : List (String × Json), f = some (some (.obj kvs)) ∧
      (lookupJ kvs "commands" = none ∨ lookupJ kvs "initialized" = none)

/-- A pre-existing installation that is initialized and valid but records
a numeric (non-string) `version`, as an externally written state file
can. -/
def fsNumericVersion : FS :=
  ⟨some (some (.obj [("initialized", .bool true), ("version", .num 7),
     ("commands", .arr [.obj [("name", .str "daily-note")]])])),
   [("daily-note.md", "x")], true⟩

/-- A valid initialized installation at version 0.9.0, for the no-op
witness. -/
def fsInstalled090 : FS :=
  ⟨some (some (encodeState ⟨true, some "0.9.0", some "T",
     [⟨"daily-note", "T", "0.9.0", .predefined⟩]⟩)),
   [("daily-note.md", "x")], true⟩

/-- Congruence of the retry loop: the result only depends on the outcomes
of the attempts the loop can actually make. -/
theorem retryGo_congr {α : Type} (op op' : Nat → Except Err α) :
    ∀ (fuel attempt : Nat) (last : Option Err),
      (∀ i, attempt ≤ i → i < attempt + fuel → op i = op' i) →
      retryGo op attempt fuel last = retryGo op' attempt fuel last := by
  intro fuel
  induction fuel with
  | zero => intro attempt last _; rfl
  | succ n ih =>
    intro attempt last h
    simp only [retryGo]
    rw [h attempt (Nat.le_refl _) (by omega)]
    cases op' attempt with
    | ok a => rfl
    | error e =>
      by_cases hte : isTransientError e = true
      · simp only [hte, if_true]
        rw [ih (attempt + 1) (some e) (fun i h1 h2 => h i (by omega) (by omega))]
      · simp only [Bool.not_eq_true] at hte
        simp only [hte]
        rfl

/-- C4: `retryOperation` retries only on transient errors (code in EAGAIN,
ECONNRESET, ETIMEDOUT, ENFILE, EMFILE, or a message mentioning
network/timeout/temporary conditions), makes at most 3 attempts total with
backoff delays of `2^attempt` seconds counted from attempt 1 (2s, 4s, 8s on
a persistently transient error), propagates a permanent error immediately
after the first attempt with no retry, and after exhausting retries
propagates the last observed error. -/
theorem retry_policy :
    (∀ (e : Err), isTransientError e = true ↔
       (e.code ∈ [some "EAGAIN", some "ECONNRESET", some "ETIMEDOUT",
                  some "ENFILE", some "EMFILE"] ∨
        strIncludes (jsLower e.message) "network" = true ∨
        strIncludes (jsLower e.message) "timeout" = true ∨
        strIncludes (jsLower e.message) "temporary" = true)) ∧
    (∀ {α : Type} (op : Nat → Except Err α) (e : Err),
       isTransientError e = false → op 1 = .error e →
       retryOperation op 3 = (.error e, [])) ∧
    (∀ {α : Type} (op : Nat → Except Err α) (e1 e2 e3 : Err),
       isTransientError e1 = true → isTransientError e2 = true →
       isTransientError e3 = true →
       op 1 = .error e1 → op 2 = .error e2 → op 3 = .error e3 →
       retryOperation op 3 = (.error e3, [2000, 4000, 8000])) ∧
    (∀ {α : Type} (op : Nat → Except Err α) (e : Err) (a : α),
       isTransientError e = true → op 1 = .error e → op 2 = .ok a →
       retryOperation op 3 = (.ok a, [2000])) ∧
    (∀ {α : Type} (op op' : Nat → Except Err α),
       (∀ i, 1 ≤ i → i ≤ 3 → op i = op' i) →
       retryOperation op 3 = retryOperation op' 3) := by
  refine ⟨?_, ?_, ?_, ?_, ?_⟩
  · intro e
    simp [isTransientError, Bool.or_eq_true, beq_iff_eq]
    tauto
  · intro α op e hte hop
    simp [retryOperation, retryGo, hop, hte]
  · intro α op e1 e2 e3 h1 h2 h3 hop1 hop2 hop3
    simp [retryOperation, retryGo, hop1, hop2, hop3, h1, h2, h3]
  · intro α op e a hte hop1 hop2
    simp [retryOperation, retryGo, hop1, hop2, hte]
  · intro α op op' h
    exact retryGo_congr op op' 3 1 none (fun i h1 h2 => h i h1 (by omega))

/-- Witness for C4 at concrete operations: a permission error is not
retried, a persistently transient error exhausts three attempts with the
2s/4s/8s backoff and the last error is propagated. -/
theorem retry_policy_witness :
    retryOperation (fun _ => (.error ⟨some "EACCES", "permission denied, mkdir"⟩ :
        Except Err Unit)) 3 =
      (.error ⟨some "EACCES", "permission denied, mkdir"⟩, []) ∧
    retryOperation (fun _ => (.error ⟨some "EAGAIN", "resource temporarily unavailable"⟩ :
        Except Err Unit)) 3 =
      (.error ⟨some "EAGAIN", "resource temporarily unavailable"⟩, [2000, 4000, 8000]) :=
  ⟨retry_policy.2.1 _ _ (by decide) rfl,
   retry_policy.2.2.1 _ _ _ _ (by decide) (by decide) (by decide) rfl rfl rfl⟩

/-- Any exception escaping the init action's try block lands in the catch
handler, which cleans up the whole installation root and exits with code 1. -/
theorem runInit_error_eq (force : Bool) (version : String)
    (script : Nat → FS → FS × Option Err) (fs0 fs2 : FS) (e : Err)
    (h : runInitTry force version script fs0 = .error (e, fs2)) :
    runInit force version script fs0 = (1, emptyFS, .failed (classifyError e)) := by
  simp [runInit, h, cleanupInstallation]

/-- C1: if any step of the install-and-persist sequence fails terminally
(the retry-wrapped operation ends with an error), the init command cleans
up the entire installation root — state file and commands directory — and
terminates with a non-zero exit code; consequently every run either exits 0
or exits 1 with no persisted state record and no command files left. -/
theorem init_all_or_nothing :
    (∀ (force : Bool) (version : String) (script : Nat → FS → FS × Option Err)
       (fs0 : FS),
       (runInit force version script fs0).1 = 0 ∨
       ((runInit force version script fs0).1 = 1 ∧
        (runInit force version script fs0).2.1.stateFile = none ∧
        (runInit force version script fs0).2.1.cmdFiles = [])) ∧
    (∀ (force : Bool) (version : String) (script : Nat → FS → FS × Option Err)
       (fs0 fs2 : FS) (e : Err),
       runInitTry force version script fs0 = .error (e, fs2) →
       runInit force version script fs0 = (1, emptyFS, .failed (classifyError e))) ∧
    (∀ (force : Bool) (version : String) (script : Nat → FS → FS × Option Err)
       (fs0 fs2 : FS) (stateValid : Bool) (e : Err),
       isStateValidE fs0.stateFile = .ok stateValid →
       (jsTruthy (isInitializedV fs0.stateFile) && stateValid && !force) = false →
       retryOpFS script
         (preInstallFS force (jsTruthy (isInitializedV fs0.stateFile)) stateValid fs0) =
         (fs2, some e) →
       runInit force version script fs0 = (1, emptyFS, .failed (classifyError e))) := by
  refine ⟨?_, ?_, ?_⟩
  · intro force version script fs0
    cases h : runInitTry force version script fs0 with
    | ok p => left; simp [runInit, h]
    | error p =>
      right
      obtain ⟨e, fs⟩ := p
      simp [runInit, h, cleanupInstallation, emptyFS]
  · intro force version script fs0 fs2 e h
    exact runInit_error_eq force version script fs0 fs2 e h
  · intro force version script fs0 fs2 stateValid e hvalid hguard hretry
    apply runInit_error_eq force version script fs0 fs2 e
    simp only [runInitTry, hvalid, hguard, Bool.false_eq_true, if_false,
      installPhase, hretry]

/-- Witness for C1: with no pre-existing installation and an
install-and-persist operation that fails with a permission error (not
retryable), init exits 1, classifies the error as a permission failure and
leaves no installation artifacts behind. -/
theorem init_all_or_nothing_witness :
    runInit false "1.0.0"
      (fun _ fs => (fs, some ⟨some "EACCES", "permission denied, mkdir"⟩))
      emptyFS = (1, emptyFS, .failed .permission) :=
  init_all_or_nothing.2.2 false "1.0.0"
    (fun _ fs => (fs, some ⟨some "EACCES", "permission denied, mkdir"⟩))
    emptyFS emptyFS false ⟨some "EACCES", "permission denied, mkdir"⟩
    rfl rfl rfl

/-- Counterexample to C7 as stated: the file content `42` is well-formed
JSON of the wrong shape, yet `loadState` returns it as parsed instead of
absent — the `as InstallationState` cast checks nothing at runtime. -/
theorem loadState_shape_counterexample :
    expectedShape (.num 42) = false ∧
    loadState (some (some (.num 42))) = some (.num 42) ∧
    loadState (some (some (.num 42))) ≠ none := by
  refine ⟨rfl, rfl, ?_⟩
  simp [loadState]

/-- C7 (amended): `loadState` returns absent exactly when the state file
does not exist, its contents are not syntactically valid JSON, or they
parse to JSON `null`; a read or parse failure is swallowed (the function
is total), but no shape validation happens — any other well-formed JSON
value is returned as parsed. -/
theorem loadState_amended :
    (∀ f : StateFile, loadState f = none ↔
       (f = none ∨ f = some none ∨ f = some (some Json.null))) ∧
    (∀ j : Json, j ≠ Json.null → loadState (some (some j)) = some j) := by
  constructor
  · intro f
    match f with
    | none => simp [loadState]
    | some none => simp [loadState]
    | some (some j) => cases j <;> simp [loadState]
  · intro j hj
    cases j with
    | null => exact absurd rfl hj
    | _ => rfl

/-- Witness for the amended C7 at a concrete wrong-shaped value. -/
theorem loadState_amended_witness :
    loadState (some (some (.str "not a state"))) = some (.str "not a state") :=
  loadState_amended.2 (.str "not a state") (by simp)

/-- Counterexample to C5 as stated: a present, loadable state whose
`commands` property is JSON `null` fails the validity invariant, yet
`isStateValid` does not return `false` — evaluating
`state.commands.length` raises a `TypeError` instead. -/
theorem isStateValid_counterexample :
    isStateValidE (some (some (.obj [("initialized", .bool true),
        ("commands", .null)]))) = .error lengthTypeError ∧
    ∀ b : Bool, isStateValidE (some (some (.obj [("initialized", .bool true),
        ("commands", .null)]))) ≠ .ok b := by
  refine ⟨rfl, ?_⟩
  intro b h
  have h2 : (Except.error lengthTypeError : Except Err Bool) = .ok b := h
  exact Except.noConfusion h2

/-- C5 (amended): for an absent or unparseable state file `isStateValid`
returns false; for a state file holding the serialisation of a typed
`InstallationState` it returns true exactly when `initialized` is `true`
and `commands` is non-empty; but for a present state whose `commands`
property is JSON `null` it raises a `TypeError` instead of returning
false. -/
theorem isStateValid_amended :
    (∀ st : InstallationState,
       isStateValidE (some (some (encodeState st))) =
         .ok (st.initialized && !st.commands.isEmpty)) ∧
    isStateValidE none = .ok false ∧
    isStateValidE (some none) = .ok false ∧
    (∀ kvs : List (String × Json),
       lookupJ kvs "initialized" = some (.bool true) →
       lookupJ kvs "commands" = some .null →
       isStateValidE (some (some (.obj kvs))) = .error lengthTypeError) := by
  refine ⟨?_, rfl, rfl, ?_⟩
  · intro st
    obtain ⟨ib, vv, ia, cs⟩ := st
    cases vv <;> cases ia <;> cases ib <;> cases cs <;>
      simp [isStateValidE, encodeState, optField, loadState, jsFalsy, jField,
        lookupJ, jsStrictTrue, jsLength]
  · intro kvs h1 h2
    simp [isStateValidE, loadState, jsFalsy, jField, h1, h2, jsStrictTrue,
      jsLength]

/-- Witness for the amended C5: a saved one-command state validates to
true, and the `commands: null` state raises the `TypeError`. -/
theorem isStateValid_amended_witness :
    isStateValidE (some (some (encodeState ⟨true, some "1.0.0", some "T",
        [⟨"daily-note", "T", "1.0.0", .predefined⟩]⟩))) = .ok true ∧
    isStateValidE (some (some (.obj [("commands", .null),
        ("initialized", .bool true)]))) = .error lengthTypeError :=
  ⟨isStateValid_amended.1 ⟨true, some "1.0.0", some "T",
      [⟨"daily-note", "T", "1.0.0", .predefined⟩]⟩,
   isStateValid_amended.2.2.2 [("commands", .null), ("initialized", .bool true)]
     rfl rfl⟩

/-- Digit characters have code point at least 48. -/
theorem digit_ge_48 (c : Char) (h : c.isDigit = true) : 48 ≤ c.toNat := by
  unfold Char.isDigit at h
  simp only [Bool.and_eq_true, decide_eq_true_eq] at h
  have h2 : ('0' : Char).val ≤ c.val := h.1
  have h3 : ('0' : Char).val.toNat ≤ c.val.toNat := by exact_mod_cast h2
  simpa [Char.toNat] using h3

/-- The integer fold of `jsNumber` computes the natural-number value on
digit-only character lists. -/
theorem foldl_digits_cast (l : List Char) :
    l.all Char.isDigit = true → ∀ a : Nat,
      l.foldl (fun x c => x * 10 + ((c.toNat : Int) - 48)) (a : Int) =
        ((l.foldl (fun x c => x * 10 + (c.toNat - 48)) a : Nat) : Int) := by
  induction l with
  | nil => intro _ a; rfl
  | cons c cs ih =>
    intro h a
    simp only [List.all_cons, Bool.and_eq_true] at h
    have hc : 48 ≤ c.toNat := digit_ge_48 c h.1
    simp only [List.foldl]
    rw [show ((a : Int) * 10 + ((c.toNat : Int) - 48)) =
          (((a * 10 + (c.toNat - 48) : Nat)) : Int) by push_cast [hc]; ring]
    exact ih h.2 _

/-- On a digit-only segment `Number` yields the segment's numeric value. -/
theorem jsNumber_digits (s : String) (h : s.data.all Char.isDigit = true) :
    jsNumber s = some ((segNat s : Nat) : Int) := by
  simp only [jsNumber, h, if_true, segNat]
  rw [show ((0 : Int) = ((0 : Nat) : Int)) by rfl, foldl_digits_cast s.data h 0]

/-- Every segment produced by splitting a digit-and-dot string on dots is
digit-only. -/
theorem splitDotsGo_digits : ∀ (l acc : List Char),
    l.all (fun c => c.isDigit || c == '.') = true →
    acc.all Char.isDigit = true →
    ∀ x ∈ splitDotsGo l acc, x.data.all Char.isDigit = true := by
  intro l
  induction l with
  | nil =>
    intro acc _ hacc x hx
    simp only [splitDotsGo, List.mem_singleton] at hx
    subst hx
    simpa [List.all_reverse] using hacc
  | cons c cs ih =>
    intro acc hl hacc x hx
    simp only [List.all_cons, Bool.and_eq_true] at hl
    simp only [splitDotsGo] at hx
    by_cases hc : c = '.'
    · simp only [hc, if_true, List.mem_cons] at hx
      rcases hx with hx | hx
      · subst hx
        simpa [List.all_reverse] using hacc
      · exact ih [] hl.2 rfl x hx
    · have hcd : c.isDigit = true := by
        rcases Bool.or_eq_true _ _ |>.mp hl.1 with h | h
        · exact h
        · exact absurd (by simpa using h) hc
      simp only [hc, if_false] at hx
      refine ih (c :: acc) hl.2 ?_ x hx
      simp [hcd, hacc]

/-- The parsed segment list of a digit-and-dot version string is its
numeric segment list. -/
theorem parts_eq (v : String) (h : isVersionString v = true) :
    (splitDots v).map jsNumber = (specSegs v).map (fun n => some ((n : Nat) : Int)) := by
  unfold specSegs
  rw [List.map_map]
  apply List.map_congr_left
  intro x hx
  exact jsNumber_digits x (splitDotsGo_digits v.data [] h rfl x hx)

/-- Reading a segment past the dropped head shifts the index by one. -/
theorem segAt_drop (p : List (Option Int)) (i : Nat) :
    segAt (p.drop 1) i = segAt p (i + 1) := by
  unfold segAt
  rw [List.get?_drop, Nat.add_comm]

/-- Shifting the start index of the comparison loop by one is dropping the
heads of both segment lists. -/
theorem cmpLoop_shift : ∀ (fuel : Nat) (p1 p2 : List (Option Int)) (i : Nat),
    cmpLoop p1 p2 (i + 1) fuel = cmpLoop (p1.drop 1) (p2.drop 1) i fuel := by
  intro fuel
  induction fuel with
  | zero => intro p1 p2 i; rfl
  | succ n ih =>
    intro p1 p2 i
    simp only [cmpLoop]
    rw [segAt_drop p1 i, segAt_drop p2 i]
    exact if_congr Iff.rfl rfl (if_congr Iff.rfl rfl (ih p1 p2 (i + 1)))

/-- Reading index 0 of an empty segment list defaults to 0. -/
theorem segAt_nil (i : Nat) : segAt [] i = some 0 := by
  simp [segAt]

/-- Reading index 0 of a cons is the head. -/
theorem segAt_cons_zero (x : Option Int) (xs : List (Option Int)) :
    segAt (x :: xs) 0 = x :=
  rfl

/-- The JavaScript `>` on two natural segment values. -/
theorem segGT_coe (a b : Nat) :
    segGT (some ((a : Nat) : Int)) (some ((b : Nat) : Int)) = decide (b < a) := by
  simp [segGT]

/-- One step of the comparison loop when the first list is exhausted. -/
theorem cmpLoop_step_nil_cons (b : Nat) (ys : List (Option Int)) (n : Nat) :
    cmpLoop [] (some ((b : Nat) : Int) :: ys) 0 (n + 1) =
      if 0 < b then -1 else cmpLoop [] ys 0 n := by
  simp only [cmpLoop, segAt_nil, segAt_cons_zero]
  rw [cmpLoop_shift n [] _ 0]
  simp only [List.drop_nil, List.drop_one, List.tail_cons]
  have h1 : segGT (some 0) (some ((b : Nat) : Int)) = false := by
    simp only [segGT, decide_eq_false_iff_not]
    omega
  have h2 : segGT (some ((b : Nat) : Int)) (some 0) = decide (0 < b) := by
    simp only [segGT, decide_eq_decide]
    omega
  rw [h1, h2]
  by_cases hb : 0 < b
  · simp [hb]
  · simp [hb]

/-- One step of the comparison loop when the second list is exhausted. -/
theorem cmpLoop_step_cons_nil (a : Nat) (xs : List (Option Int)) (n : Nat) :
    cmpLoop (some ((a : Nat) : Int) :: xs) [] 0 (n + 1) =
      if 0 < a then 1 else cmpLoop xs [] 0 n := by
  simp only [cmpLoop, segAt_nil, segAt_cons_zero]
  rw [cmpLoop_shift n _ [] 0]
  simp only [List.drop_nil, List.drop_one, List.tail_cons]
  have h1 : segGT (some ((a : Nat) : Int)) (some 0) = decide (0 < a) := by
    simp only [segGT, decide_eq_decide]
    omega
  have h2 : segGT (some 0) (some ((a : Nat) : Int)) = false := by
    simp only [segGT, decide_eq_false_iff_not]
    omega
  rw [h1, h2]
  by_cases ha : 0 < a
  · simp [ha]
  · simp [ha]

/-- One step of the comparison loop on two head segments. -/
theorem cmpLoop_step_cons_cons (x y : Option Int)
    (xs ys : List (Option Int)) (n : Nat) :
    cmpLoop (x :: xs) (y :: ys) 0 (n + 1) =
      if segGT x y then 1 else if segGT y x then -1 else cmpLoop xs ys 0 n := by
  simp only [cmpLoop, segAt_cons_zero]
  rw [cmpLoop_shift n _ _ 0]
  simp only [List.drop_one, List.tail_cons]

/-- The comparison loop agrees with the component-wise specification on
numeric segment lists. -/
theorem cmpLoop_spec : ∀ l1 l2 : List Nat,
    cmpLoop (l1.map (fun n => some ((n : Nat) : Int)))
        (l2.map (fun n => some ((n : Nat) : Int))) 0
        (max l1.length l2.length) =
      specCmp l1 l2 := by
  intro l1 l2
  induction l1, l2 using specCmp.induct with
  | case1 =>
    simp only [List.map_nil, List.length_nil, Nat.zero_max]
    simp [cmpLoop, specCmp]
  | case2 b bs hb =>
    simp only [List.map_nil, List.map_cons, List.length_nil, List.length_cons,
      Nat.zero_max, cmpLoop_step_nil_cons, specCmp]
    simp [hb]
  | case3 b bs hb ih =>
    simp only [List.map_nil, List.map_cons, List.length_nil, List.length_cons,
      Nat.zero_max, cmpLoop_step_nil_cons, specCmp]
    simp only [List.map_nil, List.length_nil, Nat.zero_max] at ih
    simp [hb, ih]
  | case4 a as ha =>
    simp only [List.map_nil, List.map_cons, List.length_nil, List.length_cons,
      Nat.max_zero, cmpLoop_step_cons_nil, specCmp]
    simp [ha]
  | case5 a as ha ih =>
    simp only [List.map_nil, List.map_cons, List.length_nil, List.length_cons,
      Nat.max_zero, cmpLoop_step_cons_nil, specCmp]
    simp only [List.map_nil, List.length_nil, Nat.max_zero] at ih
    simp [ha, ih]
  | case6 a as b bs h1 =>
    simp only [List.map_cons, List.length_cons, Nat.succ_max_succ,
      cmpLoop_step_cons_cons, segGT_coe, specCmp]
    simp [h1]
  | case7 a as b bs h1 h2 =>
    simp only [List.map_cons, List.length_cons, Nat.succ_max_succ,
      cmpLoop_step_cons_cons, segGT_coe, specCmp]
    simp [h1, h2]
  | case8 a as b bs h1 h2 ih =>
    simp only [List.map_cons, List.length_cons, Nat.succ_max_succ,
      cmpLoop_step_cons_cons, segGT_coe, specCmp]
    simp [h1, h2, ih]

/-- The specification comparison only takes the values 1, 0, -1. -/
theorem specCmp_cases : ∀ l1 l2 : List Nat,
    specCmp l1 l2 = 1 ∨ specCmp l1 l2 = 0 ∨ specCmp l1 l2 = -1 := by
  intro l1 l2
  induction l1, l2 using specCmp.induct <;> simp only [specCmp] <;>
    (try split_ifs) <;> simp_all

/-- On digit-and-dot version strings the translated `compareVersions`
computes exactly the component-wise specification comparison. -/
theorem compareVersions_spec (v1 v2 : String)
    (h1 : isVersionString v1 = true) (h2 : isVersionString v2 = true) :
    compareVersions v1 v2 = specCmp (specSegs v1) (specSegs v2) := by
  show cmpLoop ((splitDots v1).map jsNumber) ((splitDots v2).map jsNumber) 0
      (max ((splitDots v1).map jsNumber).length
           ((splitDots v2).map jsNumber).length) = _
  rw [parts_eq v1 h1, parts_eq v2 h2]
  simp only [List.length_map]
  exact cmpLoop_spec _ _

/-- Counterexample to C6 as stated: the empty installed version is present
(not absent) and component-wise equal to the empty catalog version (both
read as the single segment 0), so the claimed characterisation gives
false, yet `needsUpdate` returns true — the falsiness guard
`if (!currentVersion)` also fires on the empty string. -/
theorem needsUpdate_counterexample :
    needsUpdate (some "") "" = true ∧
    specNeedsUpdate (some "") "" = false ∧
    specSegs "" = [0] ∧
    isVersionString "" = true := by
  refine ⟨by decide, ?_, ?_, by decide⟩
  · simp [specNeedsUpdate, specGT, specSegs, splitDots, splitDotsGo, segNat,
      specCmp]
  · simp [specSegs, splitDots, splitDotsGo, segNat]

/-- C6 (amended): `needsUpdate` returns true iff the installed version is
absent or the empty string, or the catalog version is strictly greater
under the component-wise numeric comparison of dot-separated segments with
missing segments treated as 0; in particular it returns false for equal
non-empty versions. -/
theorem needsUpdate_amended :
    (∀ cv : String, needsUpdate none cv = true) ∧
    (∀ s cv : String, isVersionString s = true → isVersionString cv = true →
       needsUpdate (some s) cv = (s == "" || specGT cv s)) := by
  constructor
  · intro cv; rfl
  · intro s cv hs hcv
    by_cases he : s = ""
    · subst he
      simp [needsUpdate]
    · have hbe : (s == "") = false := by simp [he]
      simp only [needsUpdate, if_neg he, hbe, Bool.false_or]
      rw [compareVersions_spec cv s hcv hs]
      rcases specCmp_cases (specSegs cv) (specSegs s) with h | h | h <;>
        simp [specGT, h]

/-- Witness for the amended C6: a strictly smaller installed version needs
an update, an equal one does not. -/
theorem needsUpdate_amended_witness :
    needsUpdate (some "0.9.0") "1.0.0" = ("0.9.0" == "" || specGT "1.0.0" "0.9.0") ∧
    needsUpdate (some "1.0.0") "1.0.0" = ("1.0.0" == "" || specGT "1.0.0" "1.0.0") :=
  ⟨needsUpdate_amended.2 "0.9.0" "1.0.0" (by decide) (by decide),
   needsUpdate_amended.2 "1.0.0" "1.0.0" (by decide) (by decide)⟩

/-- Decoding inverts encoding on one command registration. -/
theorem decodeReg_encodeReg (r : CommandRegistration) :
    decodeReg (encodeReg r) = some r := by
  obtain ⟨n, ia, v, s⟩ := r
  cases s <;> rfl

/-- Decoding inverts encoding on a list of command registrations. -/
theorem decodeRegs_map (l : List CommandRegistration) :
    decodeRegs (l.map encodeReg) = some l := by
  induction l with
  | nil => rfl
  | cons r rs ih => simp [decodeRegs, decodeReg_encodeReg, ih]

/-- C9: for every `InstallationState`, `saveState` followed by `loadState`
yields the saved record: the loaded JavaScript value is exactly the
serialised object, and reading its typed fields back gives a value
deep-equal to the original state (omitted `undefined` keys included). -/
theorem save_load_roundtrip :
    ∀ (st : InstallationState) (fs : FS),
      loadState (saveStateFS st fs).stateFile = some (encodeState st) ∧
      decodeState (encodeState st) = some st := by
  intro st fs
  constructor
  · obtain ⟨b, vv, ia, cs⟩ := st
    simp [saveStateFS, loadState, encodeState]
  · obtain ⟨b, vv, ia, cs⟩ := st
    cases vv <;> cases ia <;>
      simp [encodeState, decodeState, optField, jField, lookupJ, readOptStr,
        decodeRegs_map]

/-- Concatenation form of the line-based header layout. -/
theorem headerConcat (d ap mp t : String) :
    "---\ndescription: " ++ d ++ "\n" ++ ap ++ "\n" ++ mp ++ "\n---\n" ++ t =
    String.intercalate "\n" ["---", "description: " ++ d, ap, mp, "---", ""] ++ t := by
  apply String.ext
  simp only [String.intercalate, String.intercalate.go, String.data_append]
  simp only [List.append_assoc]
  rfl

/-- The content the installer writes is the amended line-based rendering. -/
theorem createFileContent_amended (c : PredefinedCommand) :
    createFileContent c = claimRenderingAmended c := by
  have h1 : agentPart c = claimAgentLine c := rfl
  have h2 : modelPart c = claimModelLine c := rfl
  unfold createFileContent claimRenderingAmended
  rw [h1, h2]
  exact headerConcat c.description (claimAgentLine c) (claimModelLine c) c.template

/-- Counterexample to C8 as stated: for a command with neither agent nor
model, the installer writes a header with two empty lines where the claim
says the lines are omitted, so the written content differs from the
claimed rendering. -/
theorem installCommands_rendering_counterexample :
    (installCommandsFS [⟨"note", "d", "body", none, none⟩] emptyFS).1.cmdFiles =
      [("note.md", createFileContent ⟨"note", "d", "body", none, none⟩)] ∧
    (installCommandsFS [⟨"note", "d", "body", none, none⟩] emptyFS).2 = none ∧
    createFileContent ⟨"note", "d", "body", none, none⟩ =
      "---\ndescription: d\n\n\n---\nbody" ∧
    claimRendering ⟨"note", "d", "body", none, none⟩ =
      "---\ndescription: d\n---\nbody" ∧
    createFileContent ⟨"note", "d", "body", none, none⟩ ≠
      claimRendering ⟨"note", "d", "body", none, none⟩ := by
  refine ⟨rfl, rfl, rfl, rfl, by decide⟩

/-- A list is an initial segment of itself followed by anything. -/
theorem beginsWith_append : ∀ p r : List Char, beginsWith p (p ++ r) = true := by
  intro p
  induction p with
  | nil => intro r; rfl
  | cons c cs ih => intro r; simp [beginsWith, ih]

/-- The installer loop on an all-valid catalog writes every rendered file
in order and reports no error. -/
theorem installGo_ok : ∀ (catalog : List PredefinedCommand) (fs : FS),
    (∀ c ∈ catalog, (validateCommand c).valid = true) →
    installGo catalog fs =
      ({ fs with cmdFiles := installedFiles catalog fs.cmdFiles }, none) := by
  intro catalog
  induction catalog with
  | nil => intro fs _; rfl
  | cons c cs ih =>
    intro fs h
    have hc : (validateCommand c).valid = true := h c (List.mem_cons_self c cs)
    simp only [installGo, hc, Bool.not_true, Bool.false_eq_true, if_false,
      installedFiles, List.foldl_cons]
    exact ih _ (fun x hx => h x (List.mem_cons_of_mem c hx))

/-- The installer loop fails with the invalid-command-definition error
whenever the catalog contains an invalid entry. -/
theorem installGo_err : ∀ (catalog : List PredefinedCommand) (fs : FS)
    (c : PredefinedCommand), c ∈ catalog → (validateCommand c).valid = false →
    ∃ e : Err, (installGo catalog fs).2 = some e ∧
      beginsWith "Invalid command definition for ".data e.message.data = true := by
  intro catalog
  induction catalog with
  | nil => intro fs c hc _; exact absurd hc (List.not_mem_nil c)
  | cons d ds ih =>
    intro fs c hc hinv
    by_cases hd : (validateCommand d).valid = true
    · have hmem : c ∈ ds := by
        rcases List.mem_cons.mp hc with h | h
        · subst h; rw [hd] at hinv; exact absurd hinv (by simp)
        · exact h
      simp only [installGo, hd, Bool.not_true, Bool.false_eq_true, if_false]
      exact ih _ c hmem hinv
    · have hd' : (validateCommand d).valid = false := by
        cases hval : (validateCommand d).valid
        · rfl
        · exact absurd hval hd
      refine ⟨⟨none, "Invalid command definition for " ++ d.name ++ ": " ++
        String.intercalate ", " (validateCommand d).errors⟩, ?_, ?_⟩
      · simp [installGo, hd']
      · show beginsWith "Invalid command definition for ".data
          ("Invalid command definition for " ++ d.name ++ ": " ++
            String.intercalate ", " (validateCommand d).errors).data = true
        rw [show ("Invalid command definition for " ++ d.name ++ ": " ++
              String.intercalate ", " (validateCommand d).errors).data =
            "Invalid command definition for ".data ++
              (d.name.data ++ ": ".data ++
               (String.intercalate ", " (validateCommand d).errors).data) by
          simp]
        exact beginsWith_append _ _

/-- C8 (amended): `installCommands` ensures the commands directory exists
and, for every catalog entry in order, validates it — failing with an
`Invalid command definition` error when validation fails — and writes
`name.md` containing the dash-delimited header with the description
followed by the template verbatim, where an empty line remains in place of
each absent (undefined or empty) `agent`/`model` line. -/
theorem installCommands_amended :
    (∀ c : PredefinedCommand, createFileContent c = claimRenderingAmended c) ∧
    (∀ (catalog : List PredefinedCommand) (fs : FS),
       (∀ c ∈ catalog, (validateCommand c).valid = true) →
       installCommandsFS catalog fs =
         ({ stateFile := fs.stateFile,
            cmdFiles := installedFiles catalog fs.cmdFiles,
            cmdDirExists := true }, none)) ∧
    (∀ (catalog : List PredefinedCommand) (fs : FS) (c : PredefinedCommand),
       c ∈ catalog → (validateCommand c).valid = false →
       ∃ e : Err, (installCommandsFS catalog fs).2 = some e ∧
         beginsWith "Invalid command definition for ".data e.message.data = true) := by
  refine ⟨createFileContent_amended, ?_, ?_⟩
  · intro catalog fs h
    exact installGo_ok catalog { fs with cmdDirExists := true } h
  · intro catalog fs c hc hinv
    exact installGo_err catalog { fs with cmdDirExists := true } c hc hinv

/-- Witness for the amended C8: a valid one-command catalog installs its
rendered file, an invalid name fails with the classified error. -/
theorem installCommands_amended_witness :
    installCommandsFS [⟨"a", "d", "t", some "general", none⟩] emptyFS =
      ({ stateFile := none,
         cmdFiles := [("a.md", createFileContent ⟨"a", "d", "t", some "general", none⟩)],
         cmdDirExists := true }, none) ∧
    ∃ e : Err, (installCommandsFS [⟨"BAD", "d", "t", none, none⟩] emptyFS).2 = some e ∧
      beginsWith "Invalid command definition for ".data e.message.data = true := by
  constructor
  · exact installCommands_amended.2.1 [⟨"a", "d", "t", some "general", none⟩]
      emptyFS (by intro c hc; rw [List.mem_singleton] at hc; subst hc; decide)
  · exact installCommands_amended.2.2 [⟨"BAD", "d", "t", none, none⟩] emptyFS
      ⟨"BAD", "d", "t", none, none⟩ (List.mem_singleton.mpr rfl) (by decide)

/-- Every bundled catalog entry passes validation. -/
theorem predefined_all_valid : ∀ c ∈ PREDEFINED_COMMANDS,
    (validateCommand c).valid = true := by
  intro c hc
  simp only [PREDEFINED_COMMANDS, List.mem_cons, List.not_mem_nil,
    or_false] at hc
  rcases hc with rfl | rfl | rfl | rfl | rfl | rfl <;> decide

/-- The install-and-persist operation of init on the bundled catalog always
succeeds in one attempt, writing the six rendered files and persisting
exactly the freshly built state. -/
theorem realScript_predefined (version now : String) (k : Nat) (fs : FS) :
    realScript PREDEFINED_COMMANDS version now k fs =
      (saveStateFS (newInstallationState version now PREDEFINED_COMMANDS)
        { stateFile := fs.stateFile,
          cmdFiles := installedFiles PREDEFINED_COMMANDS fs.cmdFiles,
          cmdDirExists := true }, none) := by
  have h := installGo_ok PREDEFINED_COMMANDS { fs with cmdDirExists := true }
    predefined_all_valid
  simp only [realScript, installCommandsFS, h]

/-- A first-attempt success short-circuits the retry wrapper. -/
theorem retryOpFS_ok_first (script : Nat → FS → FS × Option Err)
    (fs fs1 : FS) (h : script 1 fs = (fs1, none)) :
    retryOpFS script fs = (fs1, none) := by
  simp [retryOpFS, retryGoFS, h]

/-- Validation of a serialised typed state computes the invariant. -/
theorem isStateValidE_encode (st : InstallationState) :
    isStateValidE (some (some (encodeState st))) =
      .ok (st.initialized && !st.commands.isEmpty) := by
  obtain ⟨ib, vv, ia, cs⟩ := st
  cases vv <;> cases ia <;> cases ib <;> cases cs <;>
    simp [isStateValidE, encodeState, optField, loadState, jsFalsy, jField,
      lookupJ, jsStrictTrue, jsLength]

/-- C10: the bundled catalog is non-empty (six entries) and the only state
the init command ever passes to `saveState` is the freshly built one: it
has `initialized = true`, the running program's version, one `predefined`
record per catalog entry, and satisfies the validity invariant — so the
program itself never persists a corrupted state. -/
theorem init_saved_state_invariant :
    PREDEFINED_COMMANDS.length = 6 ∧
    (∀ version now : String,
       (newInstallationState version now PREDEFINED_COMMANDS).initialized = true ∧
       (newInstallationState version now PREDEFINED_COMMANDS).version = some version ∧
       (newInstallationState version now PREDEFINED_COMMANDS).installedAt = some now ∧
       (newInstallationState version now PREDEFINED_COMMANDS).commands =
         PREDEFINED_COMMANDS.map (fun c => ⟨c.name, now, version, .predefined⟩) ∧
       (newInstallationState version now PREDEFINED_COMMANDS).commands.length =
         PREDEFINED_COMMANDS.length ∧
       isStateValidE (some (some (encodeState
         (newInstallationState version now PREDEFINED_COMMANDS)))) = .ok true) ∧
    (∀ (version now : String) (k : Nat) (fs : FS),
       realScript PREDEFINED_COMMANDS version now k fs =
         (saveStateFS (newInstallationState version now PREDEFINED_COMMANDS)
           { stateFile := fs.stateFile,
             cmdFiles := installedFiles PREDEFINED_COMMANDS fs.cmdFiles,
             cmdDirExists := true }, none)) := by
  refine ⟨rfl, ?_, realScript_predefined⟩
  intro version now
  refine ⟨rfl, rfl, rfl, rfl, by simp [newInstallationState], ?_⟩
  rw [isStateValidE_encode]
  simp [newInstallationState, PREDEFINED_COMMANDS]

/-- A corrupted state file never passes validation (and never makes it
throw). -/
theorem corrupted_not_valid (f : StateFile) (h : corruptedStateFile f) :
    isStateValidE f = .ok false := by
  rcases h with h | ⟨kvs, hf, hmiss⟩
  · subst h; rfl
  · subst hf
    rcases hmiss with hm | hm
    · by_cases hi : jsStrictTrue (jField (.obj kvs) "initialized") = true
      · simp [isStateValidE, loadState, jsFalsy, hi, jField, hm]
      · simp only [Bool.not_eq_true] at hi
        simp [isStateValidE, loadState, jsFalsy, hi]
    · have hi : jsStrictTrue (jField (.obj kvs) "initialized") = false := by
        simp [jField, hm, jsStrictTrue]
      simp [isStateValidE, loadState, jsFalsy, hi]

/-- C2: on every corrupted pre-existing state file (invalid JSON, or valid
JSON missing `commands`/`initialized`), running init without force
terminates successfully and persists a fresh state satisfying the validity
invariant; and whenever the loaded state has `initialized` strictly `true`
but fails validation, or force is set, the install phase starts from the
cleaned-up (empty) installation root. -/
theorem corruption_repair :
    (∀ (version now : String) (fs : FS),
       corruptedStateFile fs.stateFile →
       ∃ fs' : FS,
         runInit false version (realScript PREDEFINED_COMMANDS version now) fs =
           (0, fs', .installed) ∧
         fs'.stateFile = some (some (encodeState
           (newInstallationState version now PREDEFINED_COMMANDS))) ∧
         isStateValidE fs'.stateFile = .ok true) ∧
    (∀ (force : Bool) (version : String) (script : Nat → FS → FS × Option Err)
       (fs : FS) (stateValid : Bool),
       isStateValidE fs.stateFile = .ok stateValid →
       ((isInitializedV fs.stateFile = some (.bool true) ∧ stateValid = false) ∨
        force = true) →
       preInstallFS force (jsTruthy (isInitializedV fs.stateFile)) stateValid fs =
         emptyFS ∧
       runInitTry force version script fs = installPhase script emptyFS) := by
  constructor
  · intro version now fs hcorr
    have hvalid := corrupted_not_valid fs.stateFile hcorr
    have hscript := realScript_predefined version now 1
    set fs1 := preInstallFS false (jsTruthy (isInitializedV fs.stateFile)) false fs
      with hfs1
    have hretry : retryOpFS (realScript PREDEFINED_COMMANDS version now) fs1 =
        (saveStateFS (newInstallationState version now PREDEFINED_COMMANDS)
          { stateFile := fs1.stateFile,
            cmdFiles := installedFiles PREDEFINED_COMMANDS fs1.cmdFiles,
            cmdDirExists := true }, none) :=
      retryOpFS_ok_first _ _ _ (hscript fs1)
    refine ⟨saveStateFS (newInstallationState version now PREDEFINED_COMMANDS)
      { stateFile := fs1.stateFile,
        cmdFiles := installedFiles PREDEFINED_COMMANDS fs1.cmdFiles,
        cmdDirExists := true }, ?_, rfl, ?_⟩
    · simp only [runInit, runInitTry, hvalid, Bool.and_false, Bool.false_and,
        Bool.false_eq_true, if_false, installPhase, ← hfs1, hretry]
    · rw [saveStateFS, isStateValidE_encode]
      simp [newInstallationState, PREDEFINED_COMMANDS]
  · intro force version script fs stateValid hvalid hcond
    have hguard : (jsTruthy (isInitializedV fs.stateFile) && stateValid && !force)
        = false := by
      rcases hcond with ⟨_, hsv⟩ | hf
      · simp [hsv]
      · simp [hf]
    have hpre : preInstallFS force (jsTruthy (isInitializedV fs.stateFile))
        stateValid fs = emptyFS := by
      rcases hcond with ⟨hinit, hsv⟩ | hf
      · simp [preInstallFS, hinit, hsv, jsTruthy, jsFalsy, cleanupInstallation]
      · simp [preInstallFS, hf, cleanupInstallation]
    refine ⟨hpre, ?_⟩
    simp only [runInitTry, hvalid, hguard, Bool.false_eq_true, if_false, hpre]

/-- Witness for C2: a state file with unparseable contents is repaired by
a plain (non-forced) init run into a fresh valid installation, and a
corrupted-but-initialized state file forces cleanup before the reinstall. -/
theorem corruption_repair_witness :
    (∃ fs' : FS,
       runInit false "1.0.0" (realScript PREDEFINED_COMMANDS "1.0.0" "T")
         ⟨some none, [], false⟩ = (0, fs', .installed) ∧
       fs'.stateFile = some (some (encodeState
         (newInstallationState "1.0.0" "T" PREDEFINED_COMMANDS))) ∧
       isStateValidE fs'.stateFile = .ok true) ∧
    (preInstallFS false
       (jsTruthy (isInitializedV (some (some (.obj [("initialized", .bool true)])))))
       false ⟨some (some (.obj [("initialized", .bool true)])), [("x.md", "y")], true⟩ =
       emptyFS) := by
  constructor
  · exact corruption_repair.1 "1.0.0" "T" ⟨some none, [], false⟩ (Or.inl rfl)
  · exact (corruption_repair.2 false "1.0.0" (fun _ fs => (fs, none))
      ⟨some (some (.obj [("initialized", .bool true)])), [("x.md", "y")], true⟩
      false rfl (Or.inl ⟨rfl, rfl⟩)).1

/-- Counterexample to C3 as stated: this state is initialized, passes the
validity invariant and no force flag is given, yet init does not exit 0
leaving the filesystem unchanged — `needsUpdate` calls `.split` on the
numeric `version`, the `TypeError` lands in the catch handler, and the run
wipes the installation root and exits 1. -/
theorem init_noop_counterexample :
    jsTruthy (isInitializedV fsNumericVersion.stateFile) = true ∧
    isStateValidE fsNumericVersion.stateFile = .ok true ∧
    runInit false "1.0.0" (realScript PREDEFINED_COMMANDS "1.0.0" "T")
      fsNumericVersion = (1, emptyFS, .failed .other) ∧
    fsNumericVersion.stateFile ≠ none := by
  refine ⟨rfl, rfl, rfl, ?_⟩
  simp [fsNumericVersion]

/-- C3 (amended): whenever the loaded state is initialized, satisfies the
validity invariant, the force flag is not set, and its `version` field is
absent or a string, init takes no action: the filesystem is returned
unchanged, the exit code is 0, and the report is "update available" when
`needsUpdate` holds and "already initialized" otherwise. -/
theorem init_noop_amended :
    ∀ (version : String) (script : Nat → FS → FS × Option Err) (fs : FS)
      (st : Json),
      loadState fs.stateFile = some st →
      jsTruthy (isInitializedV fs.stateFile) = true →
      isStateValidE fs.stateFile = .ok true →
      (jField st "version" = none ∨ ∃ s : String, jField st "version" = some (.str s)) →
      ∃ b : Bool, needsUpdateE (jField st "version") version = .ok b ∧
        runInit false version script fs =
          (0, fs, if b then .updateAvailable else .alreadyInitialized) := by
  intro version script fs st hload hinit hvalid hver
  have hok : ∃ b : Bool, needsUpdateE (jField st "version") version = .ok b := by
    rcases hver with hv | ⟨s, hv⟩
    · exact ⟨true, by simp [needsUpdateE, hv, jsTruthy]⟩
    · by_cases hs : s = ""
      · subst hs
        exact ⟨true, by simp [needsUpdateE, hv, jsTruthy, jsFalsy]⟩
      · refine ⟨decide (0 < compareVersions version s), ?_⟩
        have : jsTruthy (some (Json.str s)) = true := by
          simp [jsTruthy, jsFalsy, hs]
        simp [needsUpdateE, hv, this]
  obtain ⟨b, hb⟩ := hok
  refine ⟨b, hb, ?_⟩
  simp only [runInit, runInitTry, hvalid, hinit, Bool.true_and, Bool.not_false,
    Bool.and_true, if_true, hload, hb]

/-- Witness for the amended C3: on a valid 0.9.0 installation, init
without force leaves the filesystem untouched and exits 0. -/
theorem init_noop_amended_witness :
    ∃ b : Bool,
      needsUpdateE (jField (encodeState ⟨true, some "0.9.0", some "T",
        [⟨"daily-note", "T", "0.9.0", .predefined⟩]⟩) "version") "1.0.0" = .ok b ∧
      runInit false "1.0.0" (realScript PREDEFINED_COMMANDS "1.0.0" "T")
        fsInstalled090 =
        (0, fsInstalled090, if b then .updateAvailable else .alreadyInitialized) :=
  init_noop_amended "1.0.0" (realScript PREDEFINED_COMMANDS "1.0.0" "T")
    fsInstalled090 (encodeState ⟨true, some "0.9.0", some "T",
      [⟨"daily-note", "T", "0.9.0", .predefined⟩]⟩)
    rfl rfl rfl (Or.inr ⟨"0.9.0", rfl⟩)
